import Mathlib

/-!
Verification of the artemis regression-test driver (`src/artemis/base_pytest.py`,
`src/artemis/docker_orchestrator.py`) against its specification.

The development shallowly embeds the Python code: the bounded retry loops
(`retrying.retry`) become a step function over a finite list of observed
backend states, the filesystem becomes an explicit association of paths to
JSON documents, and JSON documents become an inductive type.
-/

/-- One poll of a readiness wait, as classified by `utils.is_retry_exception`:
either the polled operation returns (`ok`), raises a `RetryError` (`retry`,
retried by the `retrying.retry` wrapper), or raises any other exception
(`fatal`, propagated immediately). -/
inductive PollRes (ε φ : Type) where
  | ok
  | retry (e : ε)
  | fatal (f : φ)
deriving DecidableEq, Repr

/-- Outcome of a whole bounded-retry wait: success at the i-th poll, a fatal
error, or exhaustion of the retry budget (`stop_max_delay`). -/
inductive RetryOutcome (φ : Type) where
  | ok (i : Nat)
  | fatal (f : φ)
  | timeout
deriving DecidableEq, Repr

/-- The `retrying.retry(..., retry_on_exception=utils.is_retry_exception)`
loop: each element of `obs` is the backend state seen by one poll; the loop
stops at the first poll that succeeds or raises a non-retryable exception,
and times out when the (finite) budget of polls is exhausted. -/
def runRetry {σ ε φ : Type} (p : σ → PollRes ε φ) : List σ → RetryOutcome φ
  | [] => .timeout
  | s :: rest =>
    match p s with
    | .ok => .ok 0
    | .fatal f => .fatal f
    | .retry _ =>
      match runRetry p rest with
      | .ok i => .ok (i + 1)
      | .fatal f => .fatal f
      | .timeout => .timeout

theorem runRetry_ok_iff {σ ε φ : Type} (p : σ → PollRes ε φ) (obs : List σ) (i : Nat) :
    runRetry p obs = .ok i ↔
      ∃ s, obs.get? i = some s ∧ p s = .ok ∧
        ∀ k, k < i → ∃ s' e, obs.get? k = some s' ∧ p s' = .retry e := by
  induction obs generalizing i with
  | nil =>
    simp [runRetry]
  | cons s rest ih =>
    cases hp : p s with
    | ok =>
      cases i with
      | zero =>
        simp [runRetry, hp]
      | succ n =>
        simp only [runRetry, hp]
        constructor
        · intro h; exact absurd h (by simp)
        · rintro ⟨s', _, _, hall⟩
          obtain ⟨s₀, e₀, hs₀, hr₀⟩ := hall 0 (Nat.succ_pos n)
          simp only [List.get?] at hs₀
          cases hs₀
          rw [hp] at hr₀
          exact absurd hr₀ (by simp)
    | fatal f =>
      simp only [runRetry, hp]
      constructor
      · intro h; exact absurd h (by simp)
      · rintro ⟨s', hs', hok, hall⟩
        cases i with
        | zero =>
          simp only [List.get?] at hs'
          cases hs'
          rw [hp] at hok
          exact absurd hok (by simp)
        | succ n =>
          obtain ⟨s₀, e₀, hs₀, hr₀⟩ := hall 0 (Nat.succ_pos n)
          simp only [List.get?] at hs₀
          cases hs₀
          rw [hp] at hr₀
          exact absurd hr₀ (by simp)
    | retry e =>
      cases i with
      | zero =>
        simp only [runRetry, hp]
        constructor
        · intro h
          cases hr : runRetry p rest <;> rw [hr] at h <;> simp at h
        · rintro ⟨s', hs', hok, _⟩
          simp only [List.get?] at hs'
          cases hs'
          rw [hp] at hok
          exact absurd hok (by simp)
      | succ n =>
        simp only [runRetry, hp]
        have step :
            (match runRetry p rest with
              | .ok i => RetryOutcome.ok (i + 1)
              | .fatal f => RetryOutcome.fatal f
              | .timeout => RetryOutcome.timeout) = RetryOutcome.ok (n + 1) ↔
              runRetry p rest = .ok n := by
          cases hr : runRetry p rest <;> simp
        rw [step, ih n]
        constructor
        · rintro ⟨s', hs', hok, hall⟩
          refine ⟨s', by simpa using hs', hok, ?_⟩
          intro k hk
          cases k with
          | zero => exact ⟨s, e, rfl, hp⟩
          | succ m =>
            obtain ⟨s₀, e₀, hs₀, hr₀⟩ := hall m (Nat.lt_of_succ_lt_succ hk)
            exact ⟨s₀, e₀, by simpa using hs₀, hr₀⟩
        · rintro ⟨s', hs', hok, hall⟩
          refine ⟨s', by simpa using hs', hok, ?_⟩
          intro k hk
          obtain ⟨s₀, e₀, hs₀, hr₀⟩ := hall (k + 1) (Nat.succ_lt_succ hk)
          exact ⟨s₀, e₀, by simpa using hs₀, hr₀⟩

/-! ## Job-state wait (`wait_for_data_processing`, base_pytest.py lines 170-212)

A Tyr job as returned by `GET /v0/jobs/{instance}`: a creation timestamp
(`strptime` of `created_at` — modelled as a `Nat`, which preserves the
ordering the code relies on), the job's own `state` field, and its
`data_sets` entries, each with a `type` and a `state`. -/

structure JobDataSet where
  type : String
  state : String
deriving DecidableEq, Repr

structure TyrJob where
  created_at : Nat
  state : String
  data_sets : List JobDataSet
deriving DecidableEq, Repr

/-- Payload of the two `RetryError`s raised by `wait_for_data_processing`:
a matching entry still in process, or no matching job created yet. -/
inductive JobRetryReason where
  | inProcess (dtype jobState : String)
  | notCreated (dtype : String)
deriving DecidableEq, Repr

/-- The inner `for dataset in job["data_sets"]` loop: the first entry whose
`type` equals `data_type` decides the poll (done → return, not failed →
`RetryError`, failed → `Exception` formatted with the *job's* `state` field,
exactly as lines 198-209 do); entries of other types are skipped. -/
def scanEntries (dtype jobState : String) :
    List JobDataSet → Option (PollRes JobRetryReason (String × String))
  | [] => none
  | e :: rest =>
    if e.type = dtype then
      some
        (if e.state = "done" then .ok
         else if e.state ≠ "failed" then .retry (.inProcess dtype jobState)
         else .fatal (dtype, jobState))
    else scanEntries dtype jobState rest

/-- The outer `for job in jobs_resp` loop: jobs whose `created_at` is not
strictly greater than `time_limit` are skipped; otherwise the job's entries
are scanned, and if no entry matches the scan moves to the next job.  When
no job decides the poll, the `RetryError` "not yet created" is raised. -/
def scanJobs (dtype : String) (timeLimit : Nat) :
    List TyrJob → PollRes JobRetryReason (String × String)
  | [] => .retry (.notCreated dtype)
  | j :: rest =>
    if j.created_at > timeLimit then
      match scanEntries dtype j.state j.data_sets with
      | some r => r
      | none => scanJobs dtype timeLimit rest
    else scanJobs dtype timeLimit rest

/-- `wait_for_data_processing(data_type, time_limit)` under its
`@retry(..., retry_on_exception=utils.is_retry_exception)` wrapper: each
element of `obs` is the job list returned by one poll of
`GET /v0/jobs/{instance}`. -/
def wait_for_data_processing (dtype : String) (timeLimit : Nat)
    (obs : List (List TyrJob)) : RetryOutcome (String × String) :=
  runRetry (scanJobs dtype timeLimit) obs

/-- A job list containing at least one job created strictly after `t0` with a
`data_sets` entry of the requested type in state "done" (the success
condition of claim C2 as literally stated). -/
def jobListHasFreshDone (dtype : String) (t0 : Nat) (jobs : List TyrJob) : Bool :=
  jobs.any fun j =>
    decide (t0 < j.created_at) &&
      j.data_sets.any fun e => decide (e.type = dtype) && decide (e.state = "done")

theorem scanEntries_ok {dtype jobState : String} {es : List JobDataSet}
    (h : scanEntries dtype jobState es = some .ok) :
    ∃ e ∈ es, e.type = dtype ∧ e.state = "done" := by
  induction es with
  | nil => simp [scanEntries] at h
  | cons e rest ih =>
    by_cases ht : e.type = dtype
    · refine ⟨e, List.mem_cons_self _ _, ht, ?_⟩
      rw [scanEntries, if_pos ht] at h
      by_cases hd : e.state = "done"
      · exact hd
      · rw [if_neg hd] at h
        by_cases hf : e.state = "failed" <;> simp [hf] at h
    · rw [scanEntries, if_neg ht] at h
      obtain ⟨e', he', h1, h2⟩ := ih h
      exact ⟨e', List.mem_cons_of_mem _ he', h1, h2⟩

theorem scanJobs_ok {dtype : String} {t0 : Nat} {jobs : List TyrJob}
    (h : scanJobs dtype t0 jobs = .ok) : jobListHasFreshDone dtype t0 jobs = true := by
  induction jobs with
  | nil => simp [scanJobs] at h
  | cons j rest ih =>
    by_cases hc : j.created_at > t0
    · rw [scanJobs, if_pos hc] at h
      cases hs : scanEntries dtype j.state j.data_sets with
      | none =>
        rw [hs] at h
        have := ih h
        simp only [jobListHasFreshDone, List.any_cons, Bool.or_eq_true]
        right
        simpa [jobListHasFreshDone] using this
      | some r =>
        rw [hs] at h
        subst h
        obtain ⟨e, he, h1, h2⟩ := scanEntries_ok hs
        simp only [jobListHasFreshDone, List.any_cons, Bool.or_eq_true]
        left
        simp only [Bool.and_eq_true, decide_eq_true_eq]
        exact ⟨hc, List.any_eq_true.2 ⟨e, he, by simp [h1, h2]⟩⟩
    · rw [scanJobs, if_neg hc] at h
      have := ih h
      simp only [jobListHasFreshDone, List.any_cons, Bool.or_eq_true]
      right
      simpa [jobListHasFreshDone] using this

theorem scanJobs_stale_cons {dtype : String} {t0 : Nat} (jstale : TyrJob)
    (jobs : List TyrJob) (h : jstale.created_at ≤ t0) :
    scanJobs dtype t0 (jstale :: jobs) = scanJobs dtype t0 jobs := by
  rw [scanJobs, if_neg (by omega)]

/-! ## Kraken reload wait (`wait_for_kraken_reload`, base_pytest.py lines 214-225)

The observed value is the string `status.last_load_at` of
`GET /coverage/{cov}/status` (`get_last_coverage_loaded_time`); the code
compares it to the baseline with `==` on strings. -/

/-- One poll of `wait_for_kraken_reload`: equal to the baseline → `RetryError`
"kraken data is not loaded"; different → success. -/
def pollReload (lastDataLoaded observed : String) : PollRes String String :=
  if lastDataLoaded = observed then .retry "kraken data is not loaded" else .ok

/-- `wait_for_kraken_reload(last_data_loaded, cov)` under its retry wrapper:
each element of `obs` is the `last_load_at` value seen by one poll. -/
def wait_for_kraken_reload (lastDataLoaded : String) (obs : List String) :
    RetryOutcome String :=
  runRetry (pollReload lastDataLoaded) obs

/-! ## Container-status wait (`wait_for_instance_configuration_status`,
docker_orchestrator.py lines 50-67)

Containers are matched by Python's substring test `"instances_configurator"
in x.name`; `next(..., None)` takes the first match. Its `@retry` wrapper has
no `retry_on_exception`, so the `Exception` raised on a status mismatch is
retried (all exceptions are retryable for that wrapper). -/

/-- `needle.isPrefixOf haystack` on char lists, written out. -/
def listStartsWith : List Char → List Char → Bool
  | [], _ => true
  | _ :: _, [] => false
  | a :: as, b :: bs => a = b && listStartsWith as bs

/-- Python's `needle in haystack` substring test, on char lists. -/
def listHasSub (needle : List Char) : List Char → Bool
  | [] => listStartsWith needle []
  | c :: cs => listStartsWith needle (c :: cs) || listHasSub needle cs

/-- Python's `needle in haystack` on strings. -/
def strContains (needle haystack : String) : Bool :=
  listHasSub needle.toList haystack.toList

structure ContainerInfo where
  name : String
  status : String
deriving DecidableEq, Repr

/-- `next((x for x in docker_list if target in x.name), None)`. -/
def findContainer (target : String) (l : List ContainerInfo) : Option ContainerInfo :=
  l.find? fun c => strContains target c.name

/-- One poll of `wait_for_instance_configuration_status(status)`: no matching
container → print and return (success); matching container with the expected
status → return (success); otherwise → `Exception` (retried, since the
wrapper retries every exception). -/
def poll_instance_configuration_status (expected : String)
    (containers : List ContainerInfo) : PollRes String String :=
  match findContainer "instances_configurator" containers with
  | none => .ok
  | some c => if c.status = expected then .ok else .retry c.status

/-- The wait itself: each element of `obs` is the compose container list seen
by one poll. -/
def wait_for_instance_configuration_status (expected : String)
    (obs : List (List ContainerInfo)) : RetryOutcome String :=
  runRetry (poll_instance_configuration_status expected) obs

/-! ## Claims C2, C3, C4, C9 -/

/-- C2 (counterexample): the claim "the wait succeeds on the first poll in
which the job list contains a job created strictly after t0 with an entry of
type d in state done" fails: with two fresh jobs, the first of which has the
matching entry still "running" and the second "done", the poll raises a
retryable error (and a single-poll wait therefore times out) even though the
list contains the done job. -/
theorem claim_C2_counterexample :
    jobListHasFreshDone "fusio" 0
        [⟨5, "running", [⟨"fusio", "running"⟩]⟩, ⟨6, "done", [⟨"fusio", "done"⟩]⟩] = true ∧
      wait_for_data_processing "fusio" 0
        [[⟨5, "running", [⟨"fusio", "running"⟩]⟩, ⟨6, "done", [⟨"fusio", "done"⟩]⟩]] =
        .timeout := by
  constructor <;> decide

/-- C2 (amended): the job-state wait (1) succeeds at a poll only if that
poll's job list contains a job created strictly after `t0` with an entry of
type `d` in state "done" — so it never succeeds on account of a job with
`created_at ≤ t0`, which the scan skips outright (2); and (3) it succeeds
exactly at the first poll whose scan — jobs in list order, entries in order,
jobs created at or before `t0` excluded — reaches a matching "done" entry
first, all earlier polls having raised retryable errors. -/
theorem claim_C2_amended (d : String) (t0 : Nat) (obs : List (List TyrJob)) (i : Nat)
    (jobs : List TyrJob) (jstale : TyrJob) :
    (scanJobs d t0 jobs = .ok → jobListHasFreshDone d t0 jobs = true) ∧
    (jstale.created_at ≤ t0 → scanJobs d t0 (jstale :: jobs) = scanJobs d t0 jobs) ∧
    (wait_for_data_processing d t0 obs = .ok i ↔
      ∃ jb, obs.get? i = some jb ∧ scanJobs d t0 jb = .ok ∧
        ∀ k, k < i → ∃ jk e, obs.get? k = some jk ∧ scanJobs d t0 jk = .retry e) :=
  ⟨scanJobs_ok, scanJobs_stale_cons jstale jobs, runRetry_ok_iff _ obs i⟩

/-- C2 (witness): a first poll with no jobs is retryable, and the wait
succeeds at the second poll, whose first fresh job has the done entry. -/
theorem claim_C2_witness :
    wait_for_data_processing "fusio" 0 [[], [⟨6, "done", [⟨"fusio", "done"⟩]⟩]] = .ok 1 := by
  apply (claim_C2_amended "fusio" 0 [[], [⟨6, "done", [⟨"fusio", "done"⟩]⟩]] 1 []
    ⟨0, "", []⟩).2.2.mpr
  refine ⟨[⟨6, "done", [⟨"fusio", "done"⟩]⟩], rfl, by decide, ?_⟩
  intro k hk
  have hk0 : k = 0 := by omega
  subst hk0
  exact ⟨[], .notCreated "fusio", rfl, by decide⟩

/-- C3 (code evaluation at the failing input): a fresh job whose own `state`
field is "running" but whose matching `data_sets` entry is "failed" makes the
poll raise the fatal (non-retryable) exception, as the claim says — but the
error carries the *job's* state "running" (the code formats `job["state"]`
into "Dataset '{type}' in state '{state}'"), not the entry's state "failed"
that its own message template and the claim refer to. -/
theorem claim_C3_code_eval :
    scanJobs "fusio" 0 [⟨1, "running", [⟨"fusio", "failed"⟩]⟩] =
        .fatal ("fusio", "running") ∧
      wait_for_data_processing "fusio" 0 [[⟨1, "running", [⟨"fusio", "failed"⟩]⟩]] =
        .fatal ("fusio", "running") ∧
      ("running" : String) ≠ "failed" := by
  refine ⟨by decide, by decide, by decide⟩

/-- C4: the reload wait succeeds at poll `i` exactly when the observed
`last_load_at` at poll `i` differs from the baseline `t0` and every earlier
poll observed exactly `t0` (each such poll raising the retryable error); in
particular it never succeeds on a poll observing `t0`. -/
theorem claim_C4_reload_wait (t0 : String) (obs : List String) (i : Nat) :
    wait_for_kraken_reload t0 obs = .ok i ↔
      ∃ v, obs.get? i = some v ∧ v ≠ t0 ∧ ∀ k, k < i → obs.get? k = some t0 := by
  rw [wait_for_kraken_reload, runRetry_ok_iff]
  constructor
  · rintro ⟨s, hs, hok, hall⟩
    refine ⟨s, hs, ?_, ?_⟩
    · intro he
      rw [pollReload, if_pos he.symm] at hok
      exact absurd hok (by simp)
    · intro k hk
      obtain ⟨s', e, hs', hr⟩ := hall k hk
      by_cases h : t0 = s'
      · rw [← h] at hs'
        exact hs'
      · rw [pollReload, if_neg h] at hr
        exact absurd hr (by simp)
  · rintro ⟨v, hv, hne, hall⟩
    refine ⟨v, hv, ?_, ?_⟩
    · rw [pollReload, if_neg fun h => hne h.symm]
    · intro k hk
      exact ⟨t0, "kraken data is not loaded", hall k hk, by rw [pollReload, if_pos rfl]⟩

/-- C4 (witness): baseline "t1", observations ["t1", "t2"]: the wait retries
on the unchanged first poll and succeeds on the second. -/
theorem claim_C4_witness :
    wait_for_kraken_reload "t1" ["t1", "t2"] = .ok 1 := by
  apply (claim_C4_reload_wait "t1" ["t1", "t2"] 1).mpr
  refine ⟨"t2", rfl, by decide, ?_⟩
  intro k hk
  have hk0 : k = 0 := by omega
  subst hk0
  rfl

/-- C9: when no container name contains "instances_configurator" the poll
succeeds vacuously (so the wait completes successfully on that very poll
rather than retrying or failing); when a matching container is found, an
unexpected status yields a retryable condition and the expected status
succeeds. -/
theorem claim_C9_container_wait (expected : String) (cs : List ContainerInfo)
    (obs : List (List ContainerInfo)) :
    (findContainer "instances_configurator" cs = none →
      poll_instance_configuration_status expected cs = .ok ∧
      wait_for_instance_configuration_status expected (cs :: obs) = .ok 0) ∧
    (∀ c, findContainer "instances_configurator" cs = some c →
      poll_instance_configuration_status expected cs =
        (if c.status = expected then .ok else .retry c.status)) := by
  constructor
  · intro h
    constructor
    · simp [poll_instance_configuration_status, h]
    · simp [wait_for_instance_configuration_status, runRetry,
        poll_instance_configuration_status, h]
  · intro c h
    simp [poll_instance_configuration_status, h]

/-- C9 (witness): a fleet with only a kraken container passes the
instances_configurator wait vacuously; a found configurator with status
"exited" instead of "running" is a retryable condition. -/
theorem claim_C9_witness :
    poll_instance_configuration_status "running" [⟨"navitia_kraken_1", "running"⟩] = .ok ∧
    wait_for_instance_configuration_status "running"
      [[⟨"navitia_kraken_1", "running"⟩]] = .ok 0 ∧
    poll_instance_configuration_status "running"
      [⟨"navitia_instances_configurator_1", "exited"⟩] = .retry "exited" := by
  have h1 := (claim_C9_container_wait "running" [⟨"navitia_kraken_1", "running"⟩] []).1
    (by decide)
  have h2 := (claim_C9_container_wait "running"
    [⟨"navitia_instances_configurator_1", "exited"⟩] []).2
    ⟨"navitia_instances_configurator_1", "exited"⟩ (by decide)
  rw [if_neg (by decide)] at h2
  exact ⟨h1.1, h1.2, h2⟩

/-! ## Per-class data loading (`manage_data`, base_pytest.py lines 46, 65-85)

`dataset_binarized` is a process-lifetime class attribute (a list of dataset
names); `manage_data` iterates `cls.data_sets` and, for each dataset not yet
in the list, runs `update_instance_db`, `remove_data_by_dataset`,
`update_data_by_dataset` and `check_values`, then appends the name. -/

structure DataSetCfg where
  name : String
  scenario : String
deriving DecidableEq, Repr

/-- The four pipeline steps issued for one dataset name. -/
inductive LoadAction where
  | updateInstanceDb (n : String)
  | removeData (n : String)
  | updateData (n : String)
  | checkValues (n : String)
deriving DecidableEq, Repr

def actionName : LoadAction → String
  | .updateInstanceDb n => n
  | .removeData n => n
  | .updateData n => n
  | .checkValues n => n

/-- The `for data_set in cls.data_sets` loop of `manage_data`: returns the
final `dataset_binarized` list and the trace of pipeline steps executed. -/
def manage_data_go : List DataSetCfg → List String → List String × List LoadAction
  | [], bin => (bin, [])
  | ds :: rest, bin =>
    if ds.name ∈ bin then manage_data_go rest bin
    else
      let r := manage_data_go rest (bin ++ [ds.name])
      (r.1,
        [LoadAction.updateInstanceDb ds.name, LoadAction.removeData ds.name,
         LoadAction.updateData ds.name, LoadAction.checkValues ds.name] ++ r.2)

/-- `manage_data(cls, request)`: returns early when `skip_bina` is set. -/
def manage_data (skipBina : Bool) (dss : List DataSetCfg) (bin : List String) :
    List String × List LoadAction :=
  if skipBina then (bin, []) else manage_data_go dss bin

theorem manage_data_go_bin_mono (dss : List DataSetCfg) :
    ∀ (bin : List String) (n : String), n ∈ bin → n ∈ (manage_data_go dss bin).1 := by
  induction dss with
  | nil => intro bin n h; simpa [manage_data_go] using h
  | cons ds rest ih =>
    intro bin n h
    by_cases hm : ds.name ∈ bin
    · rw [manage_data_go, if_pos hm]
      exact ih bin n h
    · rw [manage_data_go, if_neg hm]
      exact ih (bin ++ [ds.name]) n (List.mem_append_left _ h)

theorem manage_data_go_names (dss : List DataSetCfg) :
    ∀ (bin : List String) (ds : DataSetCfg), ds ∈ dss →
      ds.name ∈ (manage_data_go dss bin).1 := by
  induction dss with
  | nil => intro bin ds h; cases h
  | cons d rest ih =>
    intro bin ds h
    rcases List.mem_cons.1 h with rfl | hmem
    · by_cases hm : ds.name ∈ bin
      · rw [manage_data_go, if_pos hm]
        exact manage_data_go_bin_mono rest bin ds.name hm
      · rw [manage_data_go, if_neg hm]
        exact manage_data_go_bin_mono rest (bin ++ [ds.name]) ds.name
          (List.mem_append_right _ (List.mem_singleton_self _))
    · by_cases hm : d.name ∈ bin
      · rw [manage_data_go, if_pos hm]
        exact ih bin ds hmem
      · rw [manage_data_go, if_neg hm]
        exact ih (bin ++ [d.name]) ds hmem

theorem manage_data_go_noop (dss : List DataSetCfg) :
    ∀ bin : List String, (∀ ds ∈ dss, ds.name ∈ bin) →
      manage_data_go dss bin = (bin, []) := by
  induction dss with
  | nil => intro bin _; rfl
  | cons d rest ih =>
    intro bin h
    rw [manage_data_go, if_pos (h d (List.mem_cons_self _ _))]
    exact ih bin fun ds hds => h ds (List.mem_cons_of_mem _ hds)

theorem manage_data_go_skip (dss : List DataSetCfg) :
    ∀ (bin : List String) (n : String), n ∈ bin →
      ∀ a ∈ (manage_data_go dss bin).2, actionName a ≠ n := by
  induction dss with
  | nil => intro bin n _ a ha; simp [manage_data_go] at ha
  | cons d rest ih =>
    intro bin n hn a ha
    by_cases hm : d.name ∈ bin
    · rw [manage_data_go, if_pos hm] at ha
      exact ih bin n hn a ha
    · rw [manage_data_go, if_neg hm] at ha
      rcases List.mem_append.1 ha with hhd | htl
      · have : actionName a = d.name := by
          simp only [List.mem_cons, List.not_mem_nil, or_false] at hhd
          rcases hhd with rfl | rfl | rfl | rfl <;> rfl
        rw [this]
        intro heq
        exact hm (heq ▸ hn)
      · exact ih (bin ++ [d.name]) n (List.mem_append_left _ hn) a htl

theorem manage_data_go_fresh (dss : List DataSetCfg) :
    ∀ (bin : List String) (ds : DataSetCfg), ds ∈ dss → ds.name ∉ bin →
      LoadAction.updateInstanceDb ds.name ∈ (manage_data_go dss bin).2 ∧
      LoadAction.removeData ds.name ∈ (manage_data_go dss bin).2 ∧
      LoadAction.updateData ds.name ∈ (manage_data_go dss bin).2 ∧
      LoadAction.checkValues ds.name ∈ (manage_data_go dss bin).2 := by
  induction dss with
  | nil => intro bin ds h; cases h
  | cons d rest ih =>
    intro bin ds hds hnot
    by_cases hname : ds.name = d.name
    · have hm : ¬ d.name ∈ bin := by rw [← hname]; exact hnot
      rw [manage_data_go, if_neg hm]
      refine ⟨?_, ?_, ?_, ?_⟩ <;> (rw [hname]; exact List.mem_append_left _ (by simp))
    · rcases List.mem_cons.1 hds with rfl | hmem
      · exact absurd rfl hname
      · by_cases hm : d.name ∈ bin
        · rw [manage_data_go, if_pos hm]
          exact ih bin ds hmem hnot
        · rw [manage_data_go, if_neg hm]
          have hnot' : ds.name ∉ bin ++ [d.name] := by
            intro hmem'
            rcases List.mem_append.1 hmem' with h1 | h1
            · exact hnot h1
            · exact hname (List.mem_singleton.1 h1)
          obtain ⟨h1, h2, h3, h4⟩ := ih (bin ++ [d.name]) ds hmem hnot'
          exact ⟨List.mem_append_right _ h1, List.mem_append_right _ h2,
            List.mem_append_right _ h3, List.mem_append_right _ h4⟩

/-- C8: dataset loading is idempotent per process: (1) no pipeline step is
ever executed for a name already in `dataset_binarized`; (2) after the
fixture runs, every dataset's name is in the list; (3) every dataset whose
name is not yet in the list gets all four pipeline steps; (4) when every
dataset is already in the list the whole fixture is a no-op; (5) hence
re-running the fixture on its own output is a no-op. -/
theorem claim_C8_idempotent_load (dss : List DataSetCfg) (bin : List String) :
    (∀ n ∈ bin, ∀ a ∈ (manage_data false dss bin).2, actionName a ≠ n) ∧
    (∀ ds ∈ dss, ds.name ∈ (manage_data false dss bin).1) ∧
    (∀ ds ∈ dss, ds.name ∉ bin →
      LoadAction.updateInstanceDb ds.name ∈ (manage_data false dss bin).2 ∧
      LoadAction.removeData ds.name ∈ (manage_data false dss bin).2 ∧
      LoadAction.updateData ds.name ∈ (manage_data false dss bin).2 ∧
      LoadAction.checkValues ds.name ∈ (manage_data false dss bin).2) ∧
    ((∀ ds ∈ dss, ds.name ∈ bin) → manage_data false dss bin = (bin, [])) ∧
    manage_data false dss (manage_data false dss bin).1 =
      ((manage_data false dss bin).1, []) := by
  have hunfold : manage_data false dss bin = manage_data_go dss bin := rfl
  refine ⟨?_, ?_, ?_, ?_, ?_⟩
  · intro n hn a ha
    rw [hunfold] at ha
    exact manage_data_go_skip dss bin n hn a ha
  · intro ds hds
    rw [hunfold]
    exact manage_data_go_names dss bin ds hds
  · intro ds hds hnot
    rw [hunfold]
    exact manage_data_go_fresh dss bin ds hds hnot
  · intro h
    rw [hunfold]
    exact manage_data_go_noop dss bin h
  · rw [hunfold]
    show manage_data_go dss (manage_data_go dss bin).1 = _
    exact manage_data_go_noop dss _ fun ds hds => manage_data_go_names dss bin ds hds

/-- C8 (witness): loading `fr-idf` from an empty binarized list runs its four
pipeline steps, and re-running the fixture for a dataset already in the list
is a no-op. -/
theorem claim_C8_witness :
    LoadAction.updateInstanceDb "fr-idf" ∈
        (manage_data false [⟨"fr-idf", "new_default"⟩] []).2 ∧
      LoadAction.checkValues "fr-idf" ∈
        (manage_data false [⟨"fr-idf", "new_default"⟩] []).2 ∧
      manage_data false [⟨"fr-idf", "new_default"⟩] ["fr-idf"] = (["fr-idf"], []) := by
  have h := claim_C8_idempotent_load [⟨"fr-idf", "new_default"⟩] []
  obtain ⟨h1, h2, h3, h4⟩ := (h.2.2.1 ⟨"fr-idf", "new_default"⟩ (by simp) (by simp))
  have h5 := (claim_C8_idempotent_load [⟨"fr-idf", "new_default"⟩] ["fr-idf"]).2.2.2.1
    (by simp)
  exact ⟨h1, h4, h5⟩

/-! ## Staging and pushing input data (`put_data` / `update_data_by_dataset`,
base_pytest.py lines 246-296)

`put_data(data_type, file_suffix, zipped)` checks the category's local
directory, lists the files matching the extension(s), zips them for zipped
categories (the tar then contains a single member `{category}.zip`) or tars
them directly for osm, and pushes the tar `{category}.tar` into the
tyr_worker container via `put_archive`.  The caller iterates the fixed
`data_to_process` table and records the backend dataset-type of each
category actually pushed. -/

structure LocalDataDir where
  dExists : String → Bool
  filesIn : String → List String

/-- Python `f.endswith(sfx)`. -/
def strEndsWith (f sfx : String) : Bool :=
  listStartsWith sfx.toList.reverse f.toList.reverse

/-- The files staged for a category: `[f for f in os.listdir(path) if
f.endswith(file_suffix)]` (for fusio, `file_suffix` is the tuple
`(".txt", ".csv")`, hence the list of admissible extensions). -/
def filesFor (fs : LocalDataDir) (cat : String) (exts : List String) : List String :=
  (fs.filesIn cat).filter fun f => exts.any fun e => strEndsWith f e

/-- What one `put_data` call pushes: a tar containing either a single zip
member (zipped categories) or the raw files (osm). -/
inductive PushedArchive where
  | tarZip (tarName zipEntry : String) (files : List String)
  | tarFiles (tarName : String) (files : List String)
deriving DecidableEq, Repr

/-- `put_data`: `none` when the category directory does not exist (the
category is skipped); otherwise the pushed archive. -/
def put_data (fs : LocalDataDir) (cat : String) (exts : List String)
    (zipped : Bool) : Option PushedArchive :=
  if fs.dExists cat then
    some
      (if zipped then
        PushedArchive.tarZip (cat ++ ".tar") (cat ++ ".zip") (filesFor fs cat exts)
      else PushedArchive.tarFiles (cat ++ ".tar") (filesFor fs cat exts))
  else none

/-- The `data_to_process` table of `update_data_by_dataset`, verbatim:
(data files type, dataset type, extensions, is zipped). -/
def data_to_process : List (String × String × List String × Bool) :=
  [("fusio", "fusio", [".txt", ".csv"], true),
   ("osm", "osm", [".pbf"], false),
   ("fusio-poi", "poi", [".txt"], true),
   ("geopal", "geopal", [".txt"], true),
   ("fusio-geopal", "geopal", [".txt"], true)]

/-- The staging loop of `update_data_by_dataset`: pushes each existing
category and accumulates `dataset_types_to_process`. -/
def stage_and_push (fs : LocalDataDir) : List PushedArchive × List String :=
  data_to_process.foldl
    (fun acc item =>
      match put_data fs item.1 item.2.2.1 item.2.2.2 with
      | some a => (acc.1 ++ [a], acc.2 ++ [item.2.1])
      | none => acc)
    ([], [])

/-- C7: the staging step iterates exactly fusio, osm, fusio-poi, geopal,
fusio-geopal in that order; each existing category pushes `{category}.tar`
(wrapping the matching files in `{category}.zip` for every category except
osm, whose files are tarred directly), and records its backend dataset-type
(fusio→fusio, osm→osm, fusio-poi→poi, geopal→geopal, fusio-geopal→geopal);
a category whose directory does not exist contributes neither an archive nor
a recorded dataset-type. -/
theorem claim_C7_stage_and_push (fs : LocalDataDir) :
    stage_and_push fs =
      ((if fs.dExists "fusio" then
          [PushedArchive.tarZip "fusio.tar" "fusio.zip"
            (filesFor fs "fusio" [".txt", ".csv"])]
        else []) ++
       (if fs.dExists "osm" then
          [PushedArchive.tarFiles "osm.tar" (filesFor fs "osm" [".pbf"])]
        else []) ++
       (if fs.dExists "fusio-poi" then
          [PushedArchive.tarZip "fusio-poi.tar" "fusio-poi.zip"
            (filesFor fs "fusio-poi" [".txt"])]
        else []) ++
       (if fs.dExists "geopal" then
          [PushedArchive.tarZip "geopal.tar" "geopal.zip"
            (filesFor fs "geopal" [".txt"])]
        else []) ++
       (if fs.dExists "fusio-geopal" then
          [PushedArchive.tarZip "fusio-geopal.tar" "fusio-geopal.zip"
            (filesFor fs "fusio-geopal" [".txt"])]
        else []),
       (if fs.dExists "fusio" then ["fusio"] else []) ++
       (if fs.dExists "osm" then ["osm"] else []) ++
       (if fs.dExists "fusio-poi" then ["poi"] else []) ++
       (if fs.dExists "geopal" then ["geopal"] else []) ++
       (if fs.dExists "fusio-geopal" then ["geopal"] else [])) := by
  cases h1 : fs.dExists "fusio" <;> cases h2 : fs.dExists "osm" <;>
    cases h3 : fs.dExists "fusio-poi" <;> cases h4 : fs.dExists "geopal" <;>
    cases h5 : fs.dExists "fusio-geopal" <;>
    simp [stage_and_push, data_to_process, put_data, h1, h2, h3, h4, h5]

/-! ## JSON documents

The reference/response documents handled by `write_full_response_to_file`,
`create_reference` and `compare_with_ref` are JSON values; `json.loads` /
`json.dumps` are modelled as the identity on this inductive type (object
member order is significant, matching the `OrderedDict` the code builds).
A mutual inductive (rather than a nested `List`) keeps recursion and
induction structural. -/

mutual
inductive Json where
  | null
  | bool (b : Bool)
  | num (n : Int)
  | str (s : String)
  | arr (elems : JList)
  | obj (fields : JObj)
inductive JList where
  | nil
  | cons (hd : Json) (tl : JList)
inductive JObj where
  | nil
  | cons (key : String) (val : Json) (tl : JObj)
end

/-- Dictionary lookup `d[key]` on an object's members (first occurrence). -/
def getFieldO : JObj → String → Option Json
  | .nil, _ => none
  | .cons k v t, key => if k = key then some v else getFieldO t key

/-- Dictionary lookup `doc[key]`; `none` models a `KeyError` or indexing a
non-object. -/
def getField : Json → String → Option Json
  | .obj l, key => getFieldO l key
  | _, _ => none

/-- Python `s.replace(pat, rep)` on char lists: left-to-right, non
overlapping replacement of every occurrence (the empty pattern, which Python
treats specially, is left alone — the hostname is never empty).  Structural
recursion on a fuel argument that bounds the number of inspected positions;
each step consumes at least one input character, so `s.length` fuel always
suffices. -/
def replaceSubGo (pat rep : List Char) : Nat → List Char → List Char
  | 0, s => s
  | _ + 1, [] => []
  | fuel + 1, c :: cs =>
    if pat ≠ [] ∧ listStartsWith pat (c :: cs) = true then
      rep ++ replaceSubGo pat rep fuel (List.drop (pat.length - 1) cs)
    else c :: replaceSubGo pat rep fuel cs

def replaceSub (pat rep s : List Char) : List Char :=
  replaceSubGo pat rep s.length s

/-- `s.replace(config["URL_JORMUN"][7:], "localhost")`: the backend hostname
(a configuration value, hence a parameter here) replaced by the stable
placeholder. -/
def normHost (host : String) (s : String) : String :=
  String.mk (replaceSub host.toList "localhost".toList s.toList)

mutual
/-- Hostname normalization of a whole document: the code applies
`str.replace` to the serialized JSON text, so every string in the document —
member keys included — is normalized. -/
def normDoc (host : String) : Json → Json
  | .null => .null
  | .bool b => .bool b
  | .num n => .num n
  | .str s => .str (normHost host s)
  | .arr l => .arr (normDocL host l)
  | .obj l => .obj (normDocO host l)
def normDocL (host : String) : JList → JList
  | .nil => .nil
  | .cons j t => .cons (normDoc host j) (normDocL host t)
def normDocO (host : String) : JObj → JObj
  | .nil => .nil
  | .cons k v t => .cons (normHost host k) (normDoc host v) (normDocO host t)
end

mutual
/-- Spec-modelled (`default_checker`/`utils` are not under `src/`): the
volatile-field stripping half of the default filter — "the default filter
strips or normalizes fields known to be non-deterministic (absolute backend
hostnames, disruption timestamps, pagination links)". Members named
`links` or `disruptions` are removed, recursively. -/
def stripJ : Json → Json
  | .null => .null
  | .bool b => .bool b
  | .num n => .num n
  | .str s => .str s
  | .arr l => .arr (stripL l)
  | .obj l => .obj (stripO l)
def stripL : JList → JList
  | .nil => .nil
  | .cons j t => .cons (stripJ j) (stripL t)
def stripO : JObj → JObj
  | .nil => .nil
  | .cons k v t =>
    if k = "links" ∨ k = "disruptions" then stripO t
    else .cons k (stripJ v) (stripO t)
end

/-- Total lexicographic comparison on char lists (by code point). -/
def listLe : List Char → List Char → Bool
  | [], _ => true
  | _ :: _, [] => false
  | a :: as, b :: bs =>
    if a.toNat < b.toNat then true
    else if b.toNat < a.toNat then false
    else listLe as bs

def keyLe (a b : String) : Bool := listLe a.toList b.toList

theorem listLe_total (x y : List Char) : listLe x y = true ∨ listLe y x = true := by
  induction x generalizing y with
  | nil => left; rfl
  | cons a as ih =>
    cases y with
    | nil => right; rfl
    | cons b bs =>
      by_cases h1 : a.toNat < b.toNat
      · left; simp [listLe, h1]
      · by_cases h2 : b.toNat < a.toNat
        · right; simp [listLe, h2]
        · rcases ih bs with h | h
          · left; simp [listLe, h1, h2, h]
          · right; simp [listLe, h1, h2, h]

theorem keyLe_total (a b : String) : keyLe a b = true ∨ keyLe b a = true :=
  listLe_total a.toList b.toList

/-- Ordered insertion of a member by key. -/
def insertKV (k : String) (v : Json) : JObj → JObj
  | .nil => .cons k v .nil
  | .cons k₂ v₂ t =>
    if keyLe k k₂ then .cons k v (.cons k₂ v₂ t)
    else .cons k₂ v₂ (insertKV k v t)

mutual
/-- Spec-modelled (`utils.order_response` is not under `src/`): the
canonical-ordering pass applied to the stored `response` field; the spec
requires comparisons that tolerate "key ordering" instability, so object
members are insertion-sorted by key, recursively (array order is
meaningful and preserved). -/
def sortJ : Json → Json
  | .null => .null
  | .bool b => .bool b
  | .num n => .num n
  | .str s => .str s
  | .arr l => .arr (sortL l)
  | .obj l => .obj (sortO l)
def sortL : JList → JList
  | .nil => .nil
  | .cons j t => .cons (sortJ j) (sortL t)
def sortO : JObj → JObj
  | .nil => .nil
  | .cons k v t => insertKV k (sortJ v) (sortO t)
end

/-- `k` is a lower bound for the first key of `t` (vacuous for `nil`). -/
def lbO (k : String) : JObj → Prop
  | .nil => True
  | .cons k₂ _ _ => keyLe k k₂ = true

/-- Members sorted by key (adjacent comparisons). -/
def sortedO : JObj → Prop
  | .nil => True
  | .cons k _ t => lbO k t ∧ sortedO t

/-- Every member value is a fixed point of `sortJ`. -/
def vFixed : JObj → Prop
  | .nil => True
  | .cons _ v t => sortJ v = v ∧ vFixed t

theorem lbO_insertKV {k₀ k : String} {v : Json} {t : JObj} (h₀ : lbO k₀ t)
    (hk : keyLe k₀ k = true) : lbO k₀ (insertKV k v t) := by
  cases t with
  | nil => exact hk
  | cons k₂ v₂ t₂ =>
    rw [insertKV]
    by_cases h : keyLe k k₂ = true
    · rw [if_pos h]; exact hk
    · rw [if_neg h]; exact h₀

theorem sortedO_insertKV : (t : JObj) → sortedO t → (k : String) → (v : Json) →
    sortedO (insertKV k v t)
  | .nil, _, _, _ => ⟨trivial, trivial⟩
  | .cons k₂ v₂ t₂, h, k, v => by
    obtain ⟨hlb, hs⟩ := h
    rw [insertKV]
    by_cases hk : keyLe k k₂ = true
    · rw [if_pos hk]
      exact ⟨hk, hlb, hs⟩
    · rw [if_neg hk]
      have hk2 : keyLe k₂ k = true := (keyLe_total k k₂).resolve_left hk
      exact ⟨lbO_insertKV hlb hk2, sortedO_insertKV t₂ hs k v⟩

theorem sortedO_sortO : (l : JObj) → sortedO (sortO l)
  | .nil => trivial
  | .cons k v t => sortedO_insertKV (sortO t) (sortedO_sortO t) k (sortJ v)

theorem vFixed_insertKV : (t : JObj) → vFixed t → {k : String} → {v : Json} →
    sortJ v = v → vFixed (insertKV k v t)
  | .nil, _, _, _, hv => ⟨hv, trivial⟩
  | .cons k₂ v₂ t₂, ht, k, v, hv => by
    obtain ⟨hv₂, ht₂⟩ := ht
    rw [insertKV]
    by_cases hk : keyLe k k₂ = true
    · rw [if_pos hk]
      exact ⟨hv, hv₂, ht₂⟩
    · rw [if_neg hk]
      exact ⟨hv₂, vFixed_insertKV t₂ ht₂ hv⟩

theorem insertKV_of_lb {k : String} {v : Json} {t : JObj} (h : lbO k t) :
    insertKV k v t = .cons k v t := by
  cases t with
  | nil => rfl
  | cons k₂ v₂ t₂ =>
    have h' : keyLe k k₂ = true := h
    rw [insertKV, if_pos h']

theorem sortO_fix : (t : JObj) → sortedO t → vFixed t → sortO t = t
  | .nil, _, _ => rfl
  | .cons k v t₂, hs, hv => by
    obtain ⟨hlb, hs₂⟩ := hs
    obtain ⟨hvk, hv₂⟩ := hv
    rw [sortO, hvk, sortO_fix t₂ hs₂ hv₂, insertKV_of_lb hlb]

mutual
theorem sortJ_idem : (x : Json) → sortJ (sortJ x) = sortJ x
  | .null => rfl
  | .bool _ => rfl
  | .num _ => rfl
  | .str _ => rfl
  | .arr l => by rw [sortJ, sortJ, sortL_idem l]
  | .obj l => by
    rw [sortJ, sortJ, sortO_fix (sortO l) (sortedO_sortO l) (vFixed_sortO l)]
theorem sortL_idem : (l : JList) → sortL (sortL l) = sortL l
  | .nil => rfl
  | .cons j t => by rw [sortL, sortL, sortJ_idem j, sortL_idem t]
theorem vFixed_sortO : (l : JObj) → vFixed (sortO l)
  | .nil => trivial
  | .cons _ v t => vFixed_insertKV (sortO t) (vFixed_sortO t) (sortJ_idem v)
end

/-- Modelled from the spec: `utils.order_response` (artemis/utils.py is not
under `src/`). The spec requires stored comparisons to tolerate "key
ordering" instability, so the stored `response` is put in canonical member
order. -/
def order_response : Json → Json := sortJ

/-- Modelled from the spec: the journey response filter of
`artemis.default_checker` (not under `src/`) — "the default filter strips or
normalizes fields known to be non-deterministic (absolute backend hostnames,
disruption timestamps, pagination links) before comparison", producing the
canonical, deterministic document used for comparison and storage: hostnames
normalized, volatile members stripped, members in canonical order. -/
def journeyFilter (host : String) (x : Json) : Json :=
  sortJ (stripJ (normDoc host x))

/-- The checker objects handed to `request_compare`: a response filter and a
structural comparison (`compare` raises `AssertionError` exactly when the
comparison fails, modelled as `compareOk = false`). -/
structure Checker where
  filter : Json → Json
  compareOk : Json → Json → Bool

/-- The `OrderedDict` built by `write_full_response_to_file` (base_pytest.py
lines 428-455): `query` is the URL with the backend hostname replaced by
"localhost", `response` is `utils.order_response(checker.filter(parsed
response))` — note: filtered from the *un-normalized* parsed response —
and `full_response` is the parse of the hostname-normalized response text. -/
def full_response_document (filt : Json → Json) (host httpQuery : String)
    (x : Json) : Json :=
  .obj (.cons "query" (.str (normHost host httpQuery))
    (.cons "response" (order_response (filt x))
      (.cons "full_response" (normDoc host x) .nil)))

/-! ## Filesystem model

Paths map to parsed JSON contents (`json.dumps`/`json.loads` modelled as the
identity); directories are tracked for `os.makedirs`. A write prepends, and
lookup takes the first (most recent) entry. -/

structure FileSys where
  files : List (String × Json)
  dirs : List String

def fileContent (fs : FileSys) (path : String) : Option Json :=
  (fs.files.find? fun e => e.1 = path).map (·.2)

/-- `os.path.isfile`. -/
def isFile (fs : FileSys) (path : String) : Bool :=
  (fileContent fs path).isSome

def writeFile (fs : FileSys) (path : String) (content : Json) : FileSys :=
  { fs with files := (path, content) :: fs.files }

def dirExists (fs : FileSys) (d : String) : Bool :=
  fs.dirs.contains d

/-- `os.makedirs`, guarded by `if not os.path.exists(...)`. -/
def makeDirs (fs : FileSys) (d : String) : FileSys :=
  if dirExists fs d then fs else { fs with dirs := d :: fs.dirs }

/-- `write_full_response_to_file(http_query, response_string, filepath,
response_checker)`: writes the reference document at `filepath`. -/
def write_full_response_to_file (filt : Json → Json) (host httpQuery : String)
    (x : Json) (fs : FileSys) (filepath : String) : FileSys :=
  writeFile fs filepath (full_response_document filt host httpQuery x)

/-- `create_reference` (base_pytest.py lines 457-479): if a file already
exists at the resolved path, log and `assert False` without touching the
filesystem (result `false`); otherwise write the reference document there
(result `true`). -/
def create_reference (filt : Json → Json) (host httpQuery : String) (x : Json)
    (fs : FileSys) (filepath : String) : FileSys × Bool :=
  if isFile fs filepath then (fs, false)
  else (write_full_response_to_file filt host httpQuery x fs filepath, true)

/-- Outcome of `compare_with_ref`: pass, the fatal assertion on a missing
reference file, a malformed reference (`KeyError` on `full_response`), or
the `AssertionError` re-raised after the artifacts are written, carrying the
two filtered documents that were compared. -/
inductive CompareResult where
  | passed
  | refMissing (path : String)
  | badRef (path : String)
  | mismatch (filteredResp filteredRef : Json)

/-- `compare_with_ref` (base_pytest.py lines 481-576): filter the live
response; require the reference file (assert `os.path.isfile`); filter the
reference's `full_response` with the *current* filter; run
`checker.compare`; on `AssertionError`, create the per-test output directory
if needed, write `{prefix}_resp.json` (via `write_full_response_to_file`)
and `{prefix}_ref.json` (the raw reference text), and only then re-`raise`. -/
def compare_with_ref (ck : Checker) (host : String) (fs : FileSys)
    (httpQuery : String) (respJson : Json)
    (refPath outBase testSuffix fnameBase : String) : FileSys × CompareResult :=
  let filteredResp := ck.filter respJson
  match fileContent fs refPath with
  | none => (fs, .refMissing refPath)
  | some rawRef =>
    match getField rawRef "full_response" with
    | none => (fs, .badRef refPath)
    | some refFull =>
      let filteredRef := ck.filter refFull
      if ck.compareOk filteredResp filteredRef then (fs, .passed)
      else
        let outDir := outBase ++ "/" ++ testSuffix
        let fs1 := makeDirs fs outDir
        let fs2 := write_full_response_to_file ck.filter host httpQuery respJson
          fs1 (outDir ++ "/" ++ fnameBase ++ "_resp.json")
        let fs3 := writeFile fs2 (outDir ++ "/" ++ fnameBase ++ "_ref.json") rawRef
        (fs3, .mismatch filteredResp filteredRef)

theorem str_data_append (a b : String) : (a ++ b).data = a.data ++ b.data := by
  cases a
  cases b
  rfl

/-- The two artifact paths of one mismatch differ (their lengths differ). -/
theorem artifact_paths_ne (a : String) : (a ++ "_ref.json") ≠ (a ++ "_resp.json") := by
  intro h
  have hlen : (a ++ "_ref.json").data.length = (a ++ "_resp.json").data.length := by
    rw [h]
  rw [str_data_append, str_data_append, List.length_append, List.length_append] at hlen
  have h9 : ("_ref.json" : String).data.length = 9 := rfl
  have h10 : ("_resp.json" : String).data.length = 10 := rfl
  omega

theorem dirExists_makeDirs (fs : FileSys) (d : String) :
    dirExists (makeDirs fs d) d = true := by
  rw [makeDirs]
  by_cases h : dirExists fs d = true
  · rw [if_pos h]
    exact h
  · rw [if_neg h]
    simp [dirExists, List.contains]

/-- C5: in create mode, when a reference file already exists at the resolved
path the creation fails (`assert False`) returning the filesystem unchanged
— in particular the existing file's contents are untouched; when no file
exists there, the reference document is written at that path. -/
theorem claim_C5_create_reference (filt : Json → Json) (host httpQuery : String)
    (x : Json) (fs : FileSys) (filepath : String) :
    (isFile fs filepath = true →
      create_reference filt host httpQuery x fs filepath = (fs, false)) ∧
    (isFile fs filepath = false →
      create_reference filt host httpQuery x fs filepath =
        (writeFile fs filepath (full_response_document filt host httpQuery x), true) ∧
      fileContent (create_reference filt host httpQuery x fs filepath).1 filepath =
        some (full_response_document filt host httpQuery x)) := by
  constructor
  · intro h
    simp [create_reference, h]
  · intro h
    constructor
    · simp [create_reference, write_full_response_to_file, h]
    · simp [create_reference, write_full_response_to_file, writeFile, fileContent,
        List.find?, h]

/-- C5 (witness): with a reference already on disk the call fails and leaves
the filesystem exactly as it was; on an empty filesystem it writes a file at
the path. -/
theorem claim_C5_witness :
    create_reference (fun j => j) "h" "q" (Json.str "r")
        ⟨[("refs/t.json", Json.null)], []⟩ "refs/t.json" =
      (⟨[("refs/t.json", Json.null)], []⟩, false) ∧
    fileContent (create_reference (fun j => j) "h" "q" (Json.str "r")
        ⟨[], []⟩ "refs/t.json").1 "refs/t.json" =
      some (full_response_document (fun j => j) "h" "q" (Json.str "r")) := by
  constructor
  · exact (claim_C5_create_reference (fun j => j) "h" "q" (Json.str "r")
      ⟨[("refs/t.json", Json.null)], []⟩ "refs/t.json").1 (by rfl)
  · exact ((claim_C5_create_reference (fun j => j) "h" "q" (Json.str "r")
      ⟨[], []⟩ "refs/t.json").2 (by rfl)).2

/-- C6 (counterexample): the claim that on a mismatch "both filtered
documents are persisted as two sibling artifact files" fails on the
`{prefix}_ref.json` sibling: the code writes the *raw* reference text
(base_pytest.py lines 518-519 read it, 561-562 write it back), never the
filtered reference it compared against.  Concretely, with the journey filter
and a reference whose `full_response` carries a volatile `links` member, the
comparison uses the filtered reference `{"a": "v"}` (the mismatch payload),
but the `_ref.json` artifact holds the raw reference document — which
differs from that filtered reference. -/
theorem claim_C6_counterexample :
    (compare_with_ref ⟨journeyFilter "qq", fun _ _ => false⟩ "qq"
        ⟨[("ref.json", Json.obj (.cons "full_response"
          (Json.obj (.cons "links" (Json.str "L") (.cons "a" (Json.str "v") .nil)))
          .nil))], []⟩
        "q" (Json.str "new") "ref.json" "out" "T" "t1").2 =
      CompareResult.mismatch (Json.str "new")
        (Json.obj (.cons "a" (Json.str "v") .nil)) ∧
    fileContent (compare_with_ref ⟨journeyFilter "qq", fun _ _ => false⟩ "qq"
        ⟨[("ref.json", Json.obj (.cons "full_response"
          (Json.obj (.cons "links" (Json.str "L") (.cons "a" (Json.str "v") .nil)))
          .nil))], []⟩
        "q" (Json.str "new") "ref.json" "out" "T" "t1").1
        ("out" ++ "/" ++ "T" ++ "/" ++ "t1" ++ "_ref.json") =
      some (Json.obj (.cons "full_response"
        (Json.obj (.cons "links" (Json.str "L") (.cons "a" (Json.str "v") .nil)))
        .nil)) ∧
    Json.obj (.cons "full_response"
        (Json.obj (.cons "links" (Json.str "L") (.cons "a" (Json.str "v") .nil)))
        .nil) ≠
      Json.obj (.cons "a" (Json.str "v") .nil) := by
  refine ⟨rfl, rfl, ?_⟩
  intro h
  simp at h

/-- C6 (amended): in compare mode, when the structural comparison of the
filtered live response against the filtered reference fails, the per-test
output directory is present in the resulting filesystem (created on
demand), and both sibling artifacts are present under it — `{prefix}_resp.json`
holding the response document built from the live response (whose `response`
field is the filtered live response) and `{prefix}_ref.json` holding the
*raw* reference text as stored on disk (the filtered reference used in the
comparison is not itself written) — and the result is the re-raised
assertion failure carrying the two filtered documents, i.e. the failure is
returned only together with a state in which the artifacts exist. -/
theorem claim_C6_mismatch_artifacts (ck : Checker) (host : String) (fs : FileSys)
    (httpQuery : String) (respJson rawRef refFull : Json)
    (refPath outBase testSuffix fnameBase : String)
    (href : fileContent fs refPath = some rawRef)
    (hfull : getField rawRef "full_response" = some refFull)
    (hmis : ck.compareOk (ck.filter respJson) (ck.filter refFull) = false) :
    (compare_with_ref ck host fs httpQuery respJson
        refPath outBase testSuffix fnameBase).2 =
      .mismatch (ck.filter respJson) (ck.filter refFull) ∧
    dirExists (compare_with_ref ck host fs httpQuery respJson
        refPath outBase testSuffix fnameBase).1 (outBase ++ "/" ++ testSuffix) = true ∧
    fileContent (compare_with_ref ck host fs httpQuery respJson
        refPath outBase testSuffix fnameBase).1
        (outBase ++ "/" ++ testSuffix ++ "/" ++ fnameBase ++ "_resp.json") =
      some (full_response_document ck.filter host httpQuery respJson) ∧
    fileContent (compare_with_ref ck host fs httpQuery respJson
        refPath outBase testSuffix fnameBase).1
        (outBase ++ "/" ++ testSuffix ++ "/" ++ fnameBase ++ "_ref.json") =
      some rawRef := by
  have hne := artifact_paths_ne (outBase ++ "/" ++ testSuffix ++ "/" ++ fnameBase)
  simp only [compare_with_ref, href, hfull, hmis, Bool.false_eq_true, if_false]
  refine ⟨trivial, ?_, ?_, ?_⟩
  · simpa [writeFile, write_full_response_to_file, dirExists, makeDirs] using
      dirExists_makeDirs fs (outBase ++ "/" ++ testSuffix)
  · simp [fileContent, writeFile, write_full_response_to_file, List.find?, hne]
  · simp [fileContent, writeFile, write_full_response_to_file, List.find?]

/-- C6 (witness): a mismatching comparison (a checker whose `compare` always
raises) against a stored reference writes both artifacts under the on-demand
output directory and returns the mismatch. -/
theorem claim_C6_witness :
    (compare_with_ref ⟨fun j => j, fun _ _ => false⟩ "h"
        ⟨[("ref.json", Json.obj (.cons "full_response" (Json.str "old") .nil))], []⟩
        "q" (Json.str "new") "ref.json" "out" "T" "t1").2 =
      CompareResult.mismatch (Json.str "new") (Json.str "old") ∧
    dirExists (compare_with_ref ⟨fun j => j, fun _ _ => false⟩ "h"
        ⟨[("ref.json", Json.obj (.cons "full_response" (Json.str "old") .nil))], []⟩
        "q" (Json.str "new") "ref.json" "out" "T" "t1").1 ("out" ++ "/" ++ "T") = true ∧
    fileContent (compare_with_ref ⟨fun j => j, fun _ _ => false⟩ "h"
        ⟨[("ref.json", Json.obj (.cons "full_response" (Json.str "old") .nil))], []⟩
        "q" (Json.str "new") "ref.json" "out" "T" "t1").1
        ("out" ++ "/" ++ "T" ++ "/" ++ "t1" ++ "_resp.json") =
      some (full_response_document (fun j => j) "h" "q" (Json.str "new")) ∧
    fileContent (compare_with_ref ⟨fun j => j, fun _ _ => false⟩ "h"
        ⟨[("ref.json", Json.obj (.cons "full_response" (Json.str "old") .nil))], []⟩
        "q" (Json.str "new") "ref.json" "out" "T" "t1").1
        ("out" ++ "/" ++ "T" ++ "/" ++ "t1" ++ "_ref.json") =
      some (Json.obj (.cons "full_response" (Json.str "old") .nil)) :=
  claim_C6_mismatch_artifacts ⟨fun j => j, fun _ _ => false⟩ "h"
    ⟨[("ref.json", Json.obj (.cons "full_response" (Json.str "old") .nil))], []⟩
    "q" (Json.str "new")
    (Json.obj (.cons "full_response" (Json.str "old") .nil)) (Json.str "old")
    "ref.json" "out" "T" "t1" rfl rfl rfl

/-- C1: for a reference freshly created in create mode (no file at the
resolved path), the stored document's `response` field equals the current
filter applied to its `full_response` field.  `hIdem` states that hostname
normalization is idempotent on the document — true whenever one replacement
pass removes every occurrence of the backend hostname, which holds for real
hostnames (no affix of "localhost" interacts with them) and is checked
concretely in the witness. -/
theorem claim_C1_reference_roundtrip (host httpQuery : String) (x : Json)
    (fs : FileSys) (filepath : String)
    (hIdem : normDoc host (normDoc host x) = normDoc host x)
    (hnew : isFile fs filepath = false) :
    fileContent
        (create_reference (journeyFilter host) host httpQuery x fs filepath).1
        filepath =
      some (full_response_document (journeyFilter host) host httpQuery x) ∧
    getField (full_response_document (journeyFilter host) host httpQuery x)
        "response" =
      (getField (full_response_document (journeyFilter host) host httpQuery x)
          "full_response").map (journeyFilter host) := by
  constructor
  · simp [create_reference, write_full_response_to_file, writeFile, fileContent,
      List.find?, hnew]
  · have h1 : getField (full_response_document (journeyFilter host) host httpQuery x)
        "response" = some (order_response (journeyFilter host x)) := by
      simp [full_response_document, getField, getFieldO]
    have h2 : getField (full_response_document (journeyFilter host) host httpQuery x)
        "full_response" = some (normDoc host x) := by
      simp [full_response_document, getField, getFieldO]
    rw [h1, h2]
    simp only [Option.map_some', order_response, journeyFilter]
    rw [hIdem, sortJ_idem]

/-- C1 (witness): a concrete journey response (with a volatile `links`
member carrying the backend hostname) freshly written in create mode
satisfies the round-trip; hostname normalization is idempotent on it. -/
theorem claim_C1_witness :
    fileContent
        (create_reference (journeyFilter "qq") "qq" "http://qq/v1/x"
          (Json.obj (.cons "links" (Json.str "http://qq/a")
            (.cons "b" (Json.str "v") .nil)))
          ⟨[], []⟩ "refs/t1.json").1 "refs/t1.json" =
      some (full_response_document (journeyFilter "qq") "qq" "http://qq/v1/x"
        (Json.obj (.cons "links" (Json.str "http://qq/a")
          (.cons "b" (Json.str "v") .nil)))) ∧
    getField (full_response_document (journeyFilter "qq") "qq" "http://qq/v1/x"
        (Json.obj (.cons "links" (Json.str "http://qq/a")
          (.cons "b" (Json.str "v") .nil)))) "response" =
      (getField (full_response_document (journeyFilter "qq") "qq" "http://qq/v1/x"
          (Json.obj (.cons "links" (Json.str "http://qq/a")
            (.cons "b" (Json.str "v") .nil)))) "full_response").map
        (journeyFilter "qq") :=
  claim_C1_reference_roundtrip "qq" "http://qq/v1/x"
    (Json.obj (.cons "links" (Json.str "http://qq/a")
      (.cons "b" (Json.str "v") .nil)))
    ⟨[], []⟩ "refs/t1.json" rfl rfl

/-! ## Journey query URL (`journey`, base_pytest.py lines 362-426)

`journey` builds the query string by successive concatenation: the four
fixed parameters, then one `&key=value` piece per mode / forbidden uri /
kwarg, then `_override_scenario` (chosen from the first dataset's scenario
tag) and `_current_datetime` (the datetime argument).  The generated URL is
a string; the parameters a URL "contains" are recovered by splitting the
part after the first `?` on `&` and each piece at its first `=`. -/

/-- The scenario override of lines 404-414: "distributed" when the first
dataset's scenario is distributed/experimental/asgard, otherwise
"new_default". -/
def overridden_scenario (scenario : String) : String :=
  if scenario ∈ (["distributed", "experimental", "asgard"] : List String) then
    "distributed"
  else "new_default"

/-- The query string built by `journey` (the part after `?`), verbatim. -/
def journey_query (f toP dt rep : String) (fm lm dp fu : List String)
    (kwargs : List (String × String)) (scenario : String) : String :=
  let q0 := "from=" ++ f ++ "&to=" ++ toP ++ "&datetime=" ++ dt ++
    "&datetime_represents=" ++ rep
  let q1 := fm.foldl (fun q m => q ++ "&first_section_mode[]=" ++ m) q0
  let q2 := lm.foldl (fun q m => q ++ "&last_section_mode[]=" ++ m) q1
  let q3 := dp.foldl (fun q m => q ++ "&direct_path_mode[]=" ++ m) q2
  let q4 := fu.foldl (fun q u => q ++ "&forbidden_uris[]=" ++ u) q3
  let q5 := kwargs.foldl (fun q kv => q ++ "&" ++ kv.1 ++ "=" ++ kv.2) q4
  let q6 := q5 ++ "&_override_scenario=" ++ overridden_scenario scenario
  q6 ++ "&_current_datetime=" ++ dt

/-- The full URL: `{base}/v1/coverage/{coverage}/journeys?{query}` with
`coverage = str(self.data_sets[0])` (the dataset's name) and the scenario
taken from `self.data_sets[0].scenario`. -/
def journey_url (base : String) (ds : DataSetCfg) (f toP dt rep : String)
    (fm lm dp fu : List String) (kwargs : List (String × String)) : String :=
  base ++ "/v1/coverage/" ++ ds.name ++ "/journeys?" ++
    journey_query f toP dt rep fm lm dp fu kwargs ds.scenario

/-- Split a char list on a separator (`"a&b" ↦ ["a", "b"]`, keeping empty
pieces). -/
def splitCh (c : Char) : List Char → List (List Char)
  | [] => [[]]
  | x :: xs =>
    if x = c then [] :: splitCh c xs
    else
      match splitCh c xs with
      | [] => [[x]]
      | y :: ys => (x :: y) :: ys

/-- One `key=value` piece: key before the first `=`, value after it. -/
def parseParam (p : List Char) : List Char × List Char :=
  (p.takeWhile (fun ch => ch != '='), (p.dropWhile (fun ch => ch != '=')).drop 1)

/-- The parameters a URL contains: the part after the first `?`, split on
`&`, each piece split at its first `=`. -/
def urlParams (url : String) : List (List Char × List Char) :=
  (splitCh '&' ((url.data.dropWhile (fun ch => ch != '?')).drop 1)).map parseParam

/-- The values of the parameters with key `k`, in order. -/
def paramVals (ps : List (List Char × List Char)) (k : List Char) : List (List Char) :=
  ps.filterMap fun p => if p.1 = k then some p.2 else none

/-- The parameter list `journey` intends: the fixed four, the mode / uri
lists, the kwargs, then the scenario override and the current datetime. -/
def journey_params (f toP dt rep : String) (fm lm dp fu : List String)
    (kwargs : List (String × String)) (scenario : String) :
    List (List Char × List Char) :=
  [("from".data, f.data), ("to".data, toP.data), ("datetime".data, dt.data),
   ("datetime_represents".data, rep.data)] ++
  fm.map (fun m => ("first_section_mode[]".data, m.data)) ++
  lm.map (fun m => ("last_section_mode[]".data, m.data)) ++
  dp.map (fun m => ("direct_path_mode[]".data, m.data)) ++
  fu.map (fun u => ("forbidden_uris[]".data, u.data)) ++
  kwargs.map (fun kv => (kv.1.data, kv.2.data)) ++
  [("_override_scenario".data, (overridden_scenario scenario).data),
   ("_current_datetime".data, dt.data)]

def renderP (p : List Char × List Char) : List Char := p.1 ++ '=' :: p.2

def renderTail (ps : List (List Char × List Char)) : List Char :=
  (ps.map fun p => '&' :: renderP p).flatten

def renderQ : List (List Char × List Char) → List Char
  | [] => []
  | p :: ps => renderP p ++ renderTail ps

/-- A parameter that survives the round trip through the query string: no
`&` in key or value, no `=` in the key (the value may contain `=`). -/
def cleanP (p : List Char × List Char) : Prop :=
  '&' ∉ p.1 ∧ '=' ∉ p.1 ∧ '&' ∉ p.2

theorem takeWhile_append_marker (c : Char) (a b : List Char) (h : c ∉ a) :
    (a ++ c :: b).takeWhile (fun ch => ch != c) = a := by
  induction a with
  | nil => simp [List.takeWhile]
  | cons x xs ih =>
    have hx : x ≠ c := fun he => h (he ▸ List.mem_cons_self x xs)
    have hxs : c ∉ xs := fun hm => h (List.mem_cons_of_mem x hm)
    simp only [List.cons_append, List.takeWhile]
    rw [show (x != c) = true by simpa using hx]
    simp [ih hxs]

theorem dropWhile_append_marker (c : Char) (a b : List Char) (h : c ∉ a) :
    (a ++ c :: b).dropWhile (fun ch => ch != c) = c :: b := by
  induction a with
  | nil => simp [List.dropWhile]
  | cons x xs ih =>
    have hx : x ≠ c := fun he => h (he ▸ List.mem_cons_self x xs)
    have hxs : c ∉ xs := fun hm => h (List.mem_cons_of_mem x hm)
    simp only [List.cons_append, List.dropWhile]
    rw [show (x != c) = true by simpa using hx]
    exact ih hxs

theorem splitCh_of_not_mem (c : Char) (a : List Char) (h : c ∉ a) :
    splitCh c a = [a] := by
  induction a with
  | nil => rfl
  | cons x xs ih =>
    have hx : x ≠ c := fun he => h (he ▸ List.mem_cons_self x xs)
    have hxs : c ∉ xs := fun hm => h (List.mem_cons_of_mem x hm)
    rw [splitCh, if_neg hx, ih hxs]

theorem splitCh_append (c : Char) (a b : List Char) (h : c ∉ a) :
    splitCh c (a ++ c :: b) = a :: splitCh c b := by
  induction a with
  | nil => simp [splitCh]
  | cons x xs ih =>
    have hx : x ≠ c := fun he => h (he ▸ List.mem_cons_self x xs)
    have hxs : c ∉ xs := fun hm => h (List.mem_cons_of_mem x hm)
    rw [List.cons_append, splitCh, if_neg hx, ih hxs]

theorem amp_notin_renderP {p : List Char × List Char} (h : cleanP p) :
    '&' ∉ renderP p := by
  obtain ⟨h1, _, h3⟩ := h
  intro hmem
  rcases List.mem_append.1 hmem with hm | hm
  · exact h1 hm
  · rcases List.mem_cons.1 hm with hm | hm
    · cases hm
    · exact h3 hm

theorem parseParam_renderP {p : List Char × List Char} (h : cleanP p) :
    parseParam (renderP p) = p := by
  obtain ⟨_, h2, _⟩ := h
  rw [parseParam, renderP]
  rw [takeWhile_append_marker '=' p.1 p.2 h2, dropWhile_append_marker '=' p.1 p.2 h2]
  rfl

theorem renderQ_cons_cons (p q : List Char × List Char)
    (ps : List (List Char × List Char)) :
    renderQ (p :: q :: ps) = renderP p ++ '&' :: renderQ (q :: ps) := by
  simp [renderQ, renderTail]

theorem parse_renderQ : ∀ ps : List (List Char × List Char), ps ≠ [] →
    (∀ p ∈ ps, cleanP p) → (splitCh '&' (renderQ ps)).map parseParam = ps
  | [], h, _ => absurd rfl h
  | [p], _, hc => by
    have hcp : cleanP p := hc p (List.mem_singleton_self p)
    rw [show renderQ [p] = renderP p by simp [renderQ, renderTail]]
    rw [splitCh_of_not_mem '&' (renderP p) (amp_notin_renderP hcp)]
    simp [parseParam_renderP hcp]
  | p :: q :: ps, _, hc => by
    have hcp : cleanP p := hc p (List.mem_cons_self _ _)
    rw [renderQ_cons_cons, splitCh_append '&' _ _ (amp_notin_renderP hcp)]
    rw [List.map_cons, parseParam_renderP hcp]
    rw [parse_renderQ (q :: ps) (by simp) fun r hr => hc r (List.mem_cons_of_mem _ hr)]

theorem foldl_mode_data (ms : List String) (lit : String) :
    ∀ q : String, (ms.foldl (fun q m => q ++ lit ++ m) q).data =
      q.data ++ (ms.map fun m => lit.data ++ m.data).flatten := by
  induction ms with
  | nil => intro q; simp
  | cons m t ih =>
    intro q
    rw [List.foldl_cons, ih, List.map_cons, List.flatten_cons]
    simp [str_data_append, List.append_assoc]

theorem foldl_kwargs_data (kws : List (String × String)) :
    ∀ q : String,
      (kws.foldl (fun q kv => q ++ "&" ++ kv.1 ++ "=" ++ kv.2) q).data =
        q.data ++ (kws.map fun kv => '&' :: (kv.1.data ++ '=' :: kv.2.data)).flatten := by
  induction kws with
  | nil => intro q; simp
  | cons kv t ih =>
    intro q
    rw [List.foldl_cons, ih, List.map_cons, List.flatten_cons]
    have hamp : ("&" : String).data = ['&'] := rfl
    have heqc : ("=" : String).data = ['='] := rfl
    simp [str_data_append, hamp, heqc, List.append_assoc]

theorem journey_query_data (f toP dt rep : String) (fm lm dp fu : List String)
    (kwargs : List (String × String)) (scenario : String) :
    (journey_query f toP dt rep fm lm dp fu kwargs scenario).data =
      renderQ (journey_params f toP dt rep fm lm dp fu kwargs scenario) := by
  have h_from : ("from=" : String).data = "from".data ++ ['='] := rfl
  have h_to : ("&to=" : String).data = '&' :: ("to".data ++ ['=']) := rfl
  have h_dt : ("&datetime=" : String).data = '&' :: ("datetime".data ++ ['=']) := rfl
  have h_rep : ("&datetime_represents=" : String).data =
    '&' :: ("datetime_represents".data ++ ['=']) := rfl
  have h_fsm : ("&first_section_mode[]=" : String).data =
    '&' :: ("first_section_mode[]".data ++ ['=']) := rfl
  have h_lsm : ("&last_section_mode[]=" : String).data =
    '&' :: ("last_section_mode[]".data ++ ['=']) := rfl
  have h_dpm : ("&direct_path_mode[]=" : String).data =
    '&' :: ("direct_path_mode[]".data ++ ['=']) := rfl
  have h_fbu : ("&forbidden_uris[]=" : String).data =
    '&' :: ("forbidden_uris[]".data ++ ['=']) := rfl
  have h_ov : ("&_override_scenario=" : String).data =
    '&' :: ("_override_scenario".data ++ ['=']) := rfl
  have h_cd : ("&_current_datetime=" : String).data =
    '&' :: ("_current_datetime".data ++ ['=']) := rfl
  simp only [journey_query, str_data_append, foldl_mode_data, foldl_kwargs_data,
    journey_params, renderQ, renderTail, renderP, List.map_cons, List.map_append,
    List.map_map, List.flatten_cons, List.flatten_append, List.cons_append,
    List.nil_append, List.append_nil, List.singleton_append, List.append_assoc,
    List.map_nil, List.flatten_nil, Function.comp_def,
    h_from, h_to, h_dt, h_rep, h_fsm, h_lsm, h_dpm, h_fbu, h_ov, h_cd]

theorem cleanP_mk {k v : List Char} (h1 : '&' ∉ k) (h2 : '=' ∉ k)
    (h3 : '&' ∉ v) : cleanP (k, v) :=
  ⟨h1, h2, h3⟩

theorem overridden_scenario_clean (scenario : String) :
    '&' ∉ (overridden_scenario scenario).data := by
  rw [overridden_scenario]
  by_cases h : scenario ∈ (["distributed", "experimental", "asgard"] : List String)
  · rw [if_pos h]
    decide
  · rw [if_neg h]
    decide

theorem journey_params_clean (f toP dt rep : String) (fm lm dp fu : List String)
    (kwargs : List (String × String)) (scenario : String)
    (hf : '&' ∉ f.data) (hto : '&' ∉ toP.data) (hdt : '&' ∉ dt.data)
    (hrep : '&' ∉ rep.data)
    (hfm : ∀ m ∈ fm, '&' ∉ m.data) (hlm : ∀ m ∈ lm, '&' ∉ m.data)
    (hdp : ∀ m ∈ dp, '&' ∉ m.data) (hfu : ∀ u ∈ fu, '&' ∉ u.data)
    (hkw : ∀ kv ∈ kwargs, '&' ∉ kv.1.data ∧ '=' ∉ kv.1.data ∧ '&' ∉ kv.2.data) :
    ∀ p ∈ journey_params f toP dt rep fm lm dp fu kwargs scenario, cleanP p := by
  intro p hp
  simp only [journey_params, List.append_assoc, List.mem_append, List.mem_cons,
    List.not_mem_nil, or_false, List.mem_map] at hp
  rcases hp with ((rfl | rfl | rfl | rfl) | hm | hm | hm | hm | hm | (rfl | rfl))
  · exact cleanP_mk (by decide) (by decide) hf
  · exact cleanP_mk (by decide) (by decide) hto
  · exact cleanP_mk (by decide) (by decide) hdt
  · exact cleanP_mk (by decide) (by decide) hrep
  · obtain ⟨m, hmem, rfl⟩ := hm
    exact cleanP_mk (by decide) (by decide) (hfm m hmem)
  · obtain ⟨m, hmem, rfl⟩ := hm
    exact cleanP_mk (by decide) (by decide) (hlm m hmem)
  · obtain ⟨m, hmem, rfl⟩ := hm
    exact cleanP_mk (by decide) (by decide) (hdp m hmem)
  · obtain ⟨u, hmem, rfl⟩ := hm
    exact cleanP_mk (by decide) (by decide) (hfu u hmem)
  · obtain ⟨kv, hmem, rfl⟩ := hm
    exact hkw kv hmem
  · exact cleanP_mk (by decide) (by decide) (overridden_scenario_clean scenario)
  · exact cleanP_mk (by decide) (by decide) hdt

theorem journey_params_ne_nil (f toP dt rep : String) (fm lm dp fu : List String)
    (kwargs : List (String × String)) (scenario : String) :
    journey_params f toP dt rep fm lm dp fu kwargs scenario ≠ [] := by
  simp [journey_params]

/-- The parse of the generated URL recovers exactly the intended parameter
list, provided no argument smuggles in a separator (`&`, a `=` in a kwarg
key, a `?` in the base URL or coverage name). -/
theorem urlParams_journey_url (base : String) (ds : DataSetCfg)
    (f toP dt rep : String) (fm lm dp fu : List String)
    (kwargs : List (String × String))
    (hbase : '?' ∉ base.data) (hcov : '?' ∉ ds.name.data)
    (hf : '&' ∉ f.data) (hto : '&' ∉ toP.data) (hdt : '&' ∉ dt.data)
    (hrep : '&' ∉ rep.data)
    (hfm : ∀ m ∈ fm, '&' ∉ m.data) (hlm : ∀ m ∈ lm, '&' ∉ m.data)
    (hdp : ∀ m ∈ dp, '&' ∉ m.data) (hfu : ∀ u ∈ fu, '&' ∉ u.data)
    (hkw : ∀ kv ∈ kwargs, '&' ∉ kv.1.data ∧ '=' ∉ kv.1.data ∧ '&' ∉ kv.2.data) :
    urlParams (journey_url base ds f toP dt rep fm lm dp fu kwargs) =
      journey_params f toP dt rep fm lm dp fu kwargs ds.scenario := by
  have hj : ("/journeys?" : String).data = ("/journeys" : String).data ++ ['?'] := rfl
  have hsplit : (journey_url base ds f toP dt rep fm lm dp fu kwargs).data =
      (base.data ++ (("/v1/coverage/" : String).data ++ (ds.name.data ++
        ("/journeys" : String).data))) ++
        '?' :: (journey_query f toP dt rep fm lm dp fu kwargs ds.scenario).data := by
    simp [journey_url, str_data_append, hj, List.append_assoc]
  have hnoq : '?' ∉ base.data ++ (("/v1/coverage/" : String).data ++ (ds.name.data ++
      ("/journeys" : String).data)) := by
    simp only [List.mem_append, not_or]
    exact ⟨hbase, by decide, hcov, by decide⟩
  rw [urlParams, hsplit, dropWhile_append_marker '?' _ _ hnoq, List.drop_one,
    List.tail_cons, journey_query_data]
  exact parse_renderQ _ (journey_params_ne_nil f toP dt rep fm lm dp fu kwargs
      ds.scenario)
    (journey_params_clean f toP dt rep fm lm dp fu kwargs ds.scenario
      hf hto hdt hrep hfm hlm hdp hfu hkw)

theorem paramVals_nil (k : List Char) : paramVals [] k = [] := rfl

theorem paramVals_append (A B : List (List Char × List Char)) (k : List Char) :
    paramVals (A ++ B) k = paramVals A k ++ paramVals B k := by
  simp [paramVals, List.filterMap_append]

theorem paramVals_cons_eq (k v : List Char) (ps : List (List Char × List Char)) :
    paramVals ((k, v) :: ps) k = v :: paramVals ps k := by
  simp [paramVals, List.filterMap_cons]

theorem paramVals_cons_ne {k1 k : List Char} (h : k1 ≠ k) (v : List Char)
    (ps : List (List Char × List Char)) :
    paramVals ((k1, v) :: ps) k = paramVals ps k := by
  simp [paramVals, List.filterMap_cons, h]

theorem paramVals_map_constKey {α : Type} (ms : List α) (g : α → List Char)
    (kc k : List Char) (h : kc ≠ k) :
    paramVals (ms.map fun m => (kc, g m)) k = [] := by
  induction ms with
  | nil => rfl
  | cons m t ih =>
    rw [List.map_cons, paramVals_cons_ne h]
    exact ih

theorem paramVals_kwargs_none (kws : List (String × String)) (k : List Char)
    (h : ∀ kv ∈ kws, kv.1.data ≠ k) :
    paramVals (kws.map fun kv => (kv.1.data, kv.2.data)) k = [] := by
  induction kws with
  | nil => rfl
  | cons kv t ih =>
    rw [List.map_cons, paramVals_cons_ne (h kv (List.mem_cons_self _ _))]
    exact ih fun kv' hm => h kv' (List.mem_cons_of_mem _ hm)

theorem journey_params_ov (f toP dt rep : String) (fm lm dp fu : List String)
    (kwargs : List (String × String)) (scenario : String)
    (hkw : ∀ kv ∈ kwargs, kv.1.data ≠ ("_override_scenario" : String).data) :
    paramVals (journey_params f toP dt rep fm lm dp fu kwargs scenario)
        ("_override_scenario" : String).data =
      [(overridden_scenario scenario).data] := by
  simp only [journey_params, List.append_assoc, List.cons_append, List.nil_append,
    paramVals_append]
  rw [paramVals_cons_ne (by decide), paramVals_cons_ne (by decide),
    paramVals_cons_ne (by decide), paramVals_cons_ne (by decide)]
  simp only [paramVals_append]
  rw [paramVals_map_constKey fm (fun m => m.data) _ _ (by decide),
    paramVals_map_constKey lm (fun m => m.data) _ _ (by decide),
    paramVals_map_constKey dp (fun m => m.data) _ _ (by decide),
    paramVals_map_constKey fu (fun u => u.data) _ _ (by decide),
    paramVals_kwargs_none kwargs _ hkw,
    paramVals_cons_eq, paramVals_cons_ne (by decide), paramVals_nil]
  simp

theorem journey_params_cd (f toP dt rep : String) (fm lm dp fu : List String)
    (kwargs : List (String × String)) (scenario : String)
    (hkw : ∀ kv ∈ kwargs, kv.1.data ≠ ("_current_datetime" : String).data) :
    paramVals (journey_params f toP dt rep fm lm dp fu kwargs scenario)
        ("_current_datetime" : String).data = [dt.data] := by
  simp only [journey_params, List.append_assoc, List.cons_append, List.nil_append,
    paramVals_append]
  rw [paramVals_cons_ne (by decide), paramVals_cons_ne (by decide),
    paramVals_cons_ne (by decide), paramVals_cons_ne (by decide)]
  simp only [paramVals_append]
  rw [paramVals_map_constKey fm (fun m => m.data) _ _ (by decide),
    paramVals_map_constKey lm (fun m => m.data) _ _ (by decide),
    paramVals_map_constKey dp (fun m => m.data) _ _ (by decide),
    paramVals_map_constKey fu (fun u => u.data) _ _ (by decide),
    paramVals_kwargs_none kwargs _ hkw,
    paramVals_cons_ne (by decide), paramVals_cons_eq, paramVals_nil]
  simp

/-- C10 (counterexample): the claim "the generated query URL contains exactly
one `_override_scenario` parameter" fails for a call whose kwargs themselves
carry `_override_scenario`: the kwargs loop appends it verbatim and the code
then appends its own, so the URL contains two such parameters (values "foo"
and "distributed"). -/
theorem claim_C10_counterexample :
    paramVals
        (urlParams (journey_url "http://hh" ⟨"cov", "distributed"⟩ "a" "b"
          "20200101T0000" "departure" [] [] [] []
          [("_override_scenario", "foo")]))
        ("_override_scenario" : String).data =
      [("foo" : String).data, ("distributed" : String).data] := by
  rfl

/-- C10 (amended): for every call whose arguments do not themselves inject
parameter separators or these reserved keys (no `&` in values, no `&`/`=` in
kwarg keys, kwarg keys different from `_override_scenario` and
`_current_datetime`, no `?` in the base URL or coverage name), the generated
URL parses to exactly the intended parameter list; in particular it contains
exactly one `_override_scenario` parameter — "distributed" when the first
dataset's scenario is distributed/experimental/asgard and "new_default"
otherwise — and exactly one `_current_datetime` parameter equal to the
datetime argument.  (Caller-supplied arguments are interpolated verbatim, so
without these provisos additional such parameters can appear, as the
counterexample shows.) -/
theorem claim_C10_amended (base : String) (ds : DataSetCfg)
    (f toP dt rep : String) (fm lm dp fu : List String)
    (kwargs : List (String × String))
    (hbase : '?' ∉ base.data) (hcov : '?' ∉ ds.name.data)
    (hf : '&' ∉ f.data) (hto : '&' ∉ toP.data) (hdt : '&' ∉ dt.data)
    (hrep : '&' ∉ rep.data)
    (hfm : ∀ m ∈ fm, '&' ∉ m.data) (hlm : ∀ m ∈ lm, '&' ∉ m.data)
    (hdp : ∀ m ∈ dp, '&' ∉ m.data) (hfu : ∀ u ∈ fu, '&' ∉ u.data)
    (hkw : ∀ kv ∈ kwargs, '&' ∉ kv.1.data ∧ '=' ∉ kv.1.data ∧ '&' ∉ kv.2.data)
    (hkwkey : ∀ kv ∈ kwargs,
      kv.1.data ≠ ("_override_scenario" : String).data ∧
      kv.1.data ≠ ("_current_datetime" : String).data) :
    urlParams (journey_url base ds f toP dt rep fm lm dp fu kwargs) =
      journey_params f toP dt rep fm lm dp fu kwargs ds.scenario ∧
    paramVals (urlParams (journey_url base ds f toP dt rep fm lm dp fu kwargs))
        ("_override_scenario" : String).data =
      [(overridden_scenario ds.scenario).data] ∧
    paramVals (urlParams (journey_url base ds f toP dt rep fm lm dp fu kwargs))
        ("_current_datetime" : String).data = [dt.data] ∧
    (ds.scenario ∈ (["distributed", "experimental", "asgard"] : List String) →
      overridden_scenario ds.scenario = "distributed") ∧
    (ds.scenario ∉ (["distributed", "experimental", "asgard"] : List String) →
      overridden_scenario ds.scenario = "new_default") := by
  have hurl := urlParams_journey_url base ds f toP dt rep fm lm dp fu kwargs
    hbase hcov hf hto hdt hrep hfm hlm hdp hfu hkw
  refine ⟨hurl, ?_, ?_, ?_, ?_⟩
  · rw [hurl]
    exact journey_params_ov f toP dt rep fm lm dp fu kwargs ds.scenario
      fun kv hm => (hkwkey kv hm).1
  · rw [hurl]
    exact journey_params_cd f toP dt rep fm lm dp fu kwargs ds.scenario
      fun kv hm => (hkwkey kv hm).2
  · intro h
    rw [overridden_scenario, if_pos h]
  · intro h
    rw [overridden_scenario, if_neg h]

/-- C10 (witness): a clean concrete call with an experimental-scenario
dataset yields exactly one `_override_scenario=distributed` and one
`_current_datetime` equal to the datetime argument. -/
theorem claim_C10_witness :
    paramVals
        (urlParams (journey_url "http://navitia" ⟨"fr-idf", "experimental"⟩
          "A" "B" "20200101T0000" "departure" ["walking"] [] [] []
          [("count", "5")]))
        ("_override_scenario" : String).data =
      [("distributed" : String).data] ∧
    paramVals
        (urlParams (journey_url "http://navitia" ⟨"fr-idf", "experimental"⟩
          "A" "B" "20200101T0000" "departure" ["walking"] [] [] []
          [("count", "5")]))
        ("_current_datetime" : String).data =
      [("20200101T0000" : String).data] := by
  have h := claim_C10_amended "http://navitia" ⟨"fr-idf", "experimental"⟩
    "A" "B" "20200101T0000" "departure" ["walking"] [] [] [] [("count", "5")]
    (by decide) (by decide) (by decide) (by decide) (by decide) (by decide)
    (by decide) (by decide) (by decide) (by decide) (by decide) (by decide)
  have hov : overridden_scenario "experimental" = "distributed" := rfl
  exact ⟨by rw [h.2.1, hov], h.2.2.1⟩
